import Mathlib

/-!
Verification development for the `update-cloudflare-dyndns` service.

The Go sources are shallowly embedded below:
* `Addr`, `ParseAddr`, `addrString` — the `net/netip` address values the
  program manipulates (`netip.Addr`, `netip.ParseAddr`, `Addr.String`),
  embedded as far as the program observes them;
* `GoError` — Go `error` values built with `fmt.Errorf` (`%w` wrapping);
* `NtfyNotifier` and its four notification methods (notifier.go);
* `DNSUpdater.updateIP` / `UpdateIP4` / `UpdateIP6` (main.go);
* `GetExternalIP` and one tick of `pollAndUpdate` (main.go);
* `HandleIndex` (server.go).

Network effects (HTTP fetches, the Cloudflare record write) are passed in
as oracle functions; each embedded operation additionally returns the list
of provider calls and notifier invocations it performs, so that effect
claims (number of writes, notifications emitted) can be stated.
-/

namespace CFDyn

/-! ### Go errors built with fmt.Errorf -/

/-- A Go `error` value: either a leaf message or `fmt.Errorf("msg: %w", inner)`. -/
inductive GoError where
  | msg : String → GoError
  | wrap : String → GoError → GoError
deriving DecidableEq, Repr

/-- `err.Error()`: `%w`-wrapped errors render as `"msg: inner"`. -/
def goErrorString : GoError → String
  | .msg s => s
  | .wrap m e => m ++ ": " ++ goErrorString e

/-! ### netip.Addr

Go's `netip.Addr` is, as far as this program observes it, either the invalid
zero value, a 4-byte IPv4 address (`z4`, produced by `parseIPv4`), or a
16-byte IPv6 address with an optional zone (`z6`, produced by `parseIPv6`).
An IPv4 address never compares equal to its 4-in-6 mapped form because the
internal family marker differs. -/

inductive Addr where
  | unset : Addr
  | v4 : Nat → Nat → Nat → Nat → Addr
  | v6 : List Nat → String → Addr
deriving DecidableEq, Repr

/-- `Addr.Is4`: reports whether the address is a (non-mapped) IPv4 address. -/
def Addr.is4 : Addr → Bool
  | .v4 _ _ _ _ => true
  | _ => false

/-- `Addr.IsValid`: the zero `Addr` is the only invalid one. -/
def Addr.isValid : Addr → Bool
  | .unset => false
  | _ => true

/-! ### Parsing: netip.ParseAddr -/

def isDigitChar (c : Char) : Bool := 48 ≤ c.toNat && c.toNat ≤ 57

def digitVal (c : Char) : Nat := c.toNat - 48

/-- Split a character list at every `'.'` (the field decomposition implicit
in `parseIPv4Fields`'s scan). Always returns at least one field. -/
def splitOnDot : List Char → List (List Char)
  | [] => [[]]
  | c :: rest =>
    if c = '.' then [] :: splitOnDot rest
    else
      match splitOnDot rest with
      | [] => [[c]]
      | f :: fs => (c :: f) :: fs

/-- Re-join fields with `'.'`; left inverse of `splitOnDot`. -/
def joinDots : List (List Char) → List Char
  | [] => []
  | [f] => f
  | f :: fs => f ++ '.' :: joinDots fs

/-- One decimal field of `parseIPv4Fields`: digits scanned left to right into
`val`, rejecting a leading zero (`digLen == 1 && val == 0` before another
digit) and any value above 255. `digLen` counts digits consumed so far. -/
def parseFieldGo : List Char → Nat → Nat → Option Nat
  | [], val, _ => some val
  | c :: rest, val, digLen =>
    if isDigitChar c then
      if digLen = 1 ∧ val = 0 then none
      else
        let val' := val * 10 + digitVal c
        if 255 < val' then none
        else parseFieldGo rest val' (digLen + 1)
    else none

/-- A whole dotted-decimal field: nonempty string of digits, no leading
zero, value at most 255. -/
def parseField (f : List Char) : Option Nat :=
  match f with
  | [] => none
  | _ => parseFieldGo f 0 0

/-- `parseIPv4Fields` on a full string: exactly four dot-separated decimal
fields, yielding the four octets. -/
def parseIPv4Fields (l : List Char) : Option (Nat × Nat × Nat × Nat) :=
  match splitOnDot l with
  | [f0, f1, f2, f3] =>
    match parseField f0, parseField f1, parseField f2, parseField f3 with
    | some a, some b, some c, some d => some (a, b, c, d)
    | _, _, _, _ => none
  | _ => none

/-- `parseIPv4`: four octets make a `z4` address. -/
def parseIPv4 (l : List Char) : Option Addr :=
  match parseIPv4Fields l with
  | some (a, b, c, d) => some (Addr.v4 a b c d)
  | none => none

def hexDigitVal (c : Char) : Option Nat :=
  if 48 ≤ c.toNat ∧ c.toNat ≤ 57 then some (c.toNat - 48)
  else if 97 ≤ c.toNat ∧ c.toNat ≤ 102 then some (c.toNat - 97 + 10)
  else if 65 ≤ c.toNat ∧ c.toNat ≤ 70 then some (c.toNat - 65 + 10)
  else none

/-- The hex-group scan of `parseIPv6`: consume hex digits into `acc`,
failing on a fifth digit or a value ≥ 2^16; returns the accumulated value,
the number of digits consumed, and the unconsumed remainder. -/
def parseHexGroup : List Char → Nat → Nat → Option (Nat × Nat × List Char)
  | [], acc, off => some (acc, off, [])
  | c :: rest, acc, off =>
    match hexDigitVal c with
    | none => some (acc, off, c :: rest)
    | some v =>
      if 3 < off then none
      else
        let acc' := acc * 16 + v
        if 65535 < acc' then none
        else parseHexGroup rest acc' (off + 1)

/-- The main loop of `parseIPv6`. `bytes` holds the address bytes produced
so far (`i = bytes.length`), `ell` the byte position of a `::` if one was
seen. Returns the bytes, the ellipsis position, and the unconsumed input
(nonempty only when 16 bytes were filled with input left over). -/
def parse6Loop : Nat → List Char → List Nat → Option Nat → Option (List Nat × Option Nat × List Char)
  | 0, _, _, _ => none
  | fuel + 1, s, bytes, ell =>
    if 16 ≤ bytes.length then some (bytes, ell, s)
    else
      match parseHexGroup s 0 0 with
      | none => none
      | some (acc, off, rest) =>
        if off = 0 then none
        else if rest.head? = some '.' then
          -- embedded IPv4 tail: must sit in the final 4 bytes unless a ::
          -- was seen; re-parse the whole remaining input as dotted decimal
          if ell.isNone ∧ bytes.length ≠ 12 then none
          else if 16 < bytes.length + 4 then none
          else
            match parseIPv4Fields s with
            | none => none
            | some (a, b, c, d) => some (bytes ++ [a, b, c, d], ell, [])
        else
          let bytes' := bytes ++ [acc / 256, acc % 256]
          match rest with
          | [] => some (bytes', ell, [])
          | c :: rest2 =>
            if c ≠ ':' then none
            else if rest2 = [] then none
            else if rest2.head? = some ':' then
              if ell.isSome then none
              else
                let rest3 := rest2.tail
                if rest3 = [] then some (bytes', some bytes'.length, [])
                else parse6Loop fuel rest3 bytes' (some bytes'.length)
            else parse6Loop fuel rest2 bytes' ell

/-- Split the zone suffix off at the first `'%'` (as `parseIPv6` does
before scanning groups). -/
def splitZone : List Char → List Char × Option (List Char)
  | [] => ([], none)
  | c :: rest =>
    if c = '%' then ([], some rest)
    else
      let (s, z) := splitZone rest
      (c :: s, z)

/-- `parseIPv6`: zone split, optional leading `::`, the group loop, then
ellipsis expansion to 16 bytes. -/
def parseIPv6 (l : List Char) : Option Addr :=
  let (s0, zoneOpt) := splitZone l
  let zoneOk := match zoneOpt with
    | some [] => false
    | _ => true
  if zoneOk = false then none
  else
    let zone : String := match zoneOpt with
      | some z => ⟨z⟩
      | none => ""
    match s0 with
    | ':' :: ':' :: s1 =>
      if s1 = [] then some (Addr.v6 (List.replicate 16 0) zone)
      else
        match parse6Loop (s1.length + 1) s1 [] (some 0) with
        | none => none
        | some (bytes, ell, sRem) => parse6Finish bytes ell sRem zone
    | _ =>
      match parse6Loop (s0.length + 1) s0 [] none with
      | none => none
      | some (bytes, ell, sRem) => parse6Finish bytes ell sRem zone
where
  /-- Post-loop checks of `parseIPv6`: no trailing garbage, and either all
  16 bytes were parsed (in which case a `::` would have expanded to nothing
  and is an error) or an ellipsis expands with zero bytes. -/
  parse6Finish (bytes : List Nat) (ell : Option Nat) (sRem : List Char) (zone : String) :
      Option Addr :=
    if sRem ≠ [] then none
    else if bytes.length < 16 then
      match ell with
      | none => none
      | some e =>
        some (Addr.v6 (bytes.take e ++ List.replicate (16 - bytes.length) 0 ++ bytes.drop e) zone)
    else if ell.isSome then none
    else some (Addr.v6 bytes zone)

/-! ### Printing: Addr.String -/

/-- `appendDecimal`: an octet in decimal, no leading zeros. -/
def decByteChars (n : Nat) : List Char :=
  (if 100 ≤ n then [Char.ofNat (48 + n / 100)] else []) ++
  (if 10 ≤ n then [Char.ofNat (48 + n / 10 % 10)] else []) ++
  [Char.ofNat (48 + n % 10)]

def hexDigitChar (n : Nat) : Char :=
  if n < 10 then Char.ofNat (48 + n) else Char.ofNat (87 + n)

/-- `appendHex`: a 16-bit group in lowercase hex, no leading zeros. -/
def hexGroupChars (x : Nat) : List Char :=
  (if 4096 ≤ x then [hexDigitChar (x / 4096 % 16)] else []) ++
  (if 256 ≤ x then [hexDigitChar (x / 256 % 16)] else []) ++
  (if 16 ≤ x then [hexDigitChar (x / 16 % 16)] else []) ++
  [hexDigitChar (x % 16)]

/-- Group `k` of the 16 address bytes as a 16-bit value (`v6u16`). -/
def v6u16 (bytes : List Nat) (k : Nat) : Nat :=
  bytes.getD (2 * k) 0 * 256 + bytes.getD (2 * k + 1) 0

/-- End of the run of zero groups starting at `j` (the inner scan of
`appendTo6`). The index strictly increases, so fuel 9 never runs out. -/
def zeroRunEnd (gs : List Nat) : Nat → Nat → Nat
  | 0, j => j
  | fuel + 1, j =>
    if j < 8 then
      if gs.getD j 0 = 0 then zeroRunEnd gs fuel (j + 1) else j
    else j

/-- The scan of `appendTo6` choosing the leftmost longest run (length ≥ 2)
of zero groups; `(255, 255)` when none qualifies. -/
def zeroRunScan (gs : List Nat) : Nat → Nat → Nat → Nat → Nat × Nat
  | 0, _, zs, ze => (zs, ze)
  | fuel + 1, i, zs, ze =>
    if i < 8 then
      let j := zeroRunEnd gs 9 i
      let l := j - i
      if 2 ≤ l ∧ ze - zs < l then zeroRunScan gs fuel (i + 1) i j
      else zeroRunScan gs fuel (i + 1) zs ze
    else (zs, ze)

/-- The printing loop of `appendTo6`: groups in hex separated by `':'`,
with the chosen zero run collapsed to `"::"`. The loop index strictly
increases each iteration, so fuel 9 never runs out. -/
def appendTo6Loop (gs : List Nat) (zs ze : Nat) : Nat → Nat → List Char
  | 0, _ => []
  | fuel + 1, i =>
    if i < 8 then
      if i = zs then
        [':', ':'] ++
          (if 8 ≤ ze then []
           else hexGroupChars (gs.getD ze 0) ++ appendTo6Loop gs zs ze fuel (ze + 1))
      else
        (if 0 < i then [':'] else []) ++ hexGroupChars (gs.getD i 0) ++
          appendTo6Loop gs zs ze fuel (i + 1)
    else []

/-- `appendTo6` on the 16 address bytes. -/
def string6Chars (bytes : List Nat) : List Char :=
  let gs := (List.range 8).map (v6u16 bytes)
  let (zs, ze) := zeroRunScan gs 9 0 255 255
  appendTo6Loop gs zs ze 9 0

/-- `Addr.Is4In6`: the first ten bytes zero and bytes ten and eleven 0xff. -/
def is4In6 (bytes : List Nat) : Bool :=
  (bytes.take 10).all (· = 0) && bytes.getD 10 0 = 255 && bytes.getD 11 0 = 255

/-- `Addr.String`: dotted decimal for IPv4; canonical RFC 5952 text for
IPv6, with 4-in-6 addresses printed as `::ffff:a.b.c.d` and the zone
appended after `'%'`. The invalid address prints `"invalid IP"`. -/
def addrString : Addr → String
  | .unset => "invalid IP"
  | .v4 a b c d =>
    ⟨joinDots [decByteChars a, decByteChars b, decByteChars c, decByteChars d]⟩
  | .v6 bytes zone =>
    let zoneSuffix : List Char := if zone = "" then [] else '%' :: zone.data
    if is4In6 bytes then
      ⟨"::ffff:".data ++
        joinDots [decByteChars (bytes.getD 12 0), decByteChars (bytes.getD 13 0),
          decByteChars (bytes.getD 14 0), decByteChars (bytes.getD 15 0)] ++ zoneSuffix⟩
    else ⟨string6Chars bytes ++ zoneSuffix⟩

/-- The first of `'.'`, `':'`, `'%'` occurring in the string, which
`ParseAddr` dispatches on. -/
def firstSpecial : List Char → Option Char
  | [] => none
  | c :: rest =>
    if c = '.' ∨ c = ':' ∨ c = '%' then some c else firstSpecial rest

/-- `netip.ParseAddr`. The concrete `parseAddrError` is never observed by
this program (both call sites discard it), so failure is `none`. -/
def ParseAddr (s : String) : Option Addr :=
  match firstSpecial s.data with
  | some '.' => parseIPv4 s.data
  | some ':' => parseIPv6 s.data
  | _ => none

/-! ### notifier.go: NtfyNotifier

Time instants (`time.Time`) are integers; `time.Since(t)` at instant `now`
is `now - t`; `time.Duration` comparisons are strict as in the source.
`Notify` posts to ntfy.sh and its result is discarded at every call site,
so a notifier method returns the updated state together with the list of
`(tags, message)` pairs it posted. -/

structure NtfyNotifier where
  token : String
  grace : Int
  lastGetIP : Int
  lastUpdateIP : Int
  failedGetIP : Int
  failedUpdateIP : Int
deriving DecidableEq, Repr

/-- One `(tags, message)` pair handed to `Notify`. -/
abbrev NtfyMsg := String × String

/-- `NotifyFailedGetIP`: alert only when both the last fetch success and
the last fetch-failure alert are more than `grace` ago; record the alert
instant. -/
def NotifyFailedGetIP (now : Int) (n : NtfyNotifier) (err : GoError) :
    NtfyNotifier × List NtfyMsg :=
  if n.grace < now - n.lastGetIP ∧ n.grace < now - n.failedGetIP then
    ({ n with failedGetIP := now },
      [("warning", "Failed to get IP address: " ++ goErrorString err)])
  else (n, [])

/-- `NotifyFailedUpdateIP`: the same gate on the update channel. -/
def NotifyFailedUpdateIP (now : Int) (n : NtfyNotifier) (err : GoError) :
    NtfyNotifier × List NtfyMsg :=
  if n.grace < now - n.lastUpdateIP ∧ n.grace < now - n.failedUpdateIP then
    ({ n with failedUpdateIP := now },
      [("warning", "Failed to update IP address: " ++ goErrorString err)])
  else (n, [])

/-- `NotifySuccessGetIP`: a "Repaired" message when the last fetch success
is more than `grace` ago; the deferred assignment resets `lastGetIP`
unconditionally. -/
def NotifySuccessGetIP (now : Int) (n : NtfyNotifier) :
    NtfyNotifier × List NtfyMsg :=
  ({ n with lastGetIP := now },
    if n.grace < now - n.lastGetIP then
      [("globe_with_meridians", "Repaired: Get IP address")]
    else [])

/-- `NotifySuccessUpdateIP`: a "Repaired" message when more time has
elapsed since the last update success than since the last update-failure
alert, otherwise a "New IP address" message; the deferred assignment
resets `lastUpdateIP` unconditionally. -/
def NotifySuccessUpdateIP (now : Int) (n : NtfyNotifier) (ip : Addr) :
    NtfyNotifier × List NtfyMsg :=
  ({ n with lastUpdateIP := now },
    if now - n.failedUpdateIP < now - n.lastUpdateIP then
      [("globe_with_meridians", "Repaired: IP address updated to " ++ addrString ip)]
    else
      [("globe_with_meridians", "New IP address: " ++ addrString ip)])

/-! ### main.go: DNSUpdater -/

/-- The address family of a record slot: `addr` holds the `"A"` slot,
`addr6` the `"AAAA"` slot. -/
inductive Family where
  | v4 : Family
  | v6 : Family
deriving DecidableEq, Repr

def recordTypeOf : Family → String
  | .v4 => "A"
  | .v6 => "AAAA"

/-- The mutable fields of `DNSUpdater` (the `api` handle and the notifier
binding are process-constant and factored out as parameters). Both slots
start as the zero `netip.Addr`. -/
structure DNSUpdaterState where
  addr : Addr
  addr6 : Addr
deriving DecidableEq, Repr

def initialDNSUpdaterState : DNSUpdaterState := ⟨Addr.unset, Addr.unset⟩

def getSlot (st : DNSUpdaterState) : Family → Addr
  | .v4 => st.addr
  | .v6 => st.addr6

def setSlot (st : DNSUpdaterState) : Family → Addr → DNSUpdaterState
  | .v4, ip => { st with addr := ip }
  | .v6, ip => { st with addr6 := ip }

/-- One invocation of the provider write `updateRecord(zone, ip, recordType)`
(server.go), recorded with its arguments. -/
structure ProviderCall where
  zone : String
  ip : String
  recordType : String
deriving DecidableEq, Repr

/-- The provider capability: what `updateRecord` returns for given
arguments (`none` = success). -/
abbrev Provider := String → String → String → Option GoError

/-- A call the updater or the poll loop makes on its `Notifier` binding. -/
inductive NotifyEvent where
  | failedGetIP : GoError → NotifyEvent
  | failedUpdateIP : GoError → NotifyEvent
  | successGetIP : NotifyEvent
  | successUpdateIP : Addr → NotifyEvent
deriving DecidableEq, Repr

/-- Result of `DNSUpdater.updateIP`: the updater state after the call, the
returned error, the provider writes issued, and the notifier calls made. -/
structure UpdateResult where
  state : DNSUpdaterState
  err : Option GoError
  calls : List ProviderCall
  events : List NotifyEvent
deriving DecidableEq, Repr

/-- `DNSUpdater.updateIP` (main.go): under the lock, return immediately if
the slot already holds `ip`; otherwise call `updateRecord`, and on success
store the address and notify. -/
def updateIP (provider : Provider) (st : DNSUpdaterState) (fam : Family)
    (ip : Addr) (zone : String) : UpdateResult :=
  if getSlot st fam = ip then
    ⟨st, none, [], []⟩
  else
    let call : ProviderCall := ⟨zone, addrString ip, recordTypeOf fam⟩
    match provider zone (addrString ip) (recordTypeOf fam) with
    | some e =>
      ⟨st, some (.wrap ("failed to update " ++ recordTypeOf fam ++ " record") e),
        [call], []⟩
    | none =>
      ⟨setSlot st fam ip, none, [call], [.successUpdateIP ip]⟩

/-- `DNSUpdater.UpdateIP4`. -/
def UpdateIP4 (provider : Provider) (st : DNSUpdaterState) (ip : Addr)
    (zone : String) : UpdateResult :=
  updateIP provider st .v4 ip zone

/-- `DNSUpdater.UpdateIP6`. -/
def UpdateIP6 (provider : Provider) (st : DNSUpdaterState) (ip : Addr)
    (zone : String) : UpdateResult :=
  updateIP provider st .v6 ip zone

/-! ### main.go: GetExternalIP and one tick of pollAndUpdate -/

/-- The network side of `http.Get` plus `io.ReadAll`: either the response
body or a transport error. -/
abbrev HttpGet := String → Except GoError String

/-- `GetExternalIP`: fetch the body and parse it; on a parse failure the
error embeds the body text and the returned address is the zero `Addr`. -/
def GetExternalIP (httpGet : HttpGet) (url : String) : Addr × Option GoError :=
  match httpGet url with
  | .error e => (Addr.unset, some e)
  | .ok body =>
    match ParseAddr body with
    | some ip => (ip, none)
    | none => (Addr.unset, some (.msg ("invalid IP address format: " ++ body)))

/-- Everything one `ticker.C` iteration of `pollAndUpdate` does: final
updater state, provider writes, notifier calls (fetch outcomes first, then
the v4 update, then the v6 update), and the families for which the updater
was invoked. -/
structure TickResult where
  state : DNSUpdaterState
  calls : List ProviderCall
  events : List NotifyEvent
  invoked : List Family
deriving DecidableEq, Repr

/-- The per-family update step of a tick: invoke the updater only when the
fetch succeeded and the address is valid, and route an update error to
`NotifyFailedUpdateIP` with the family tag prefixed. -/
def tickUpdateStep (provider : Provider) (st : DNSUpdaterState) (fam : Family)
    (fetched : Addr × Option GoError) (zone famTag : String) :
    DNSUpdaterState × List ProviderCall × List NotifyEvent × List Family :=
  match fetched with
  | (addr, fetchErr) =>
    if fetchErr = none ∧ addr.isValid then
      let r := updateIP provider st fam addr zone
      match r.err with
      | some e => (r.state, r.calls, r.events ++ [.failedUpdateIP (.wrap famTag e)], [fam])
      | none => (r.state, r.calls, r.events, [fam])
    else (st, [], [], [])

/-- One tick of `pollAndUpdate`: fetch v4 and v6 (their goroutines join at
`wg.Wait()` before any update), notify each fetch outcome, then run the v4
update and the v6 update in program order. -/
def tick (httpGet : HttpGet) (provider : Provider) (st : DNSUpdaterState)
    (url url6 zone : String) : TickResult :=
  let rV4 := GetExternalIP httpGet url
  let rV6 := GetExternalIP httpGet url6
  let fetchEvents4 : List NotifyEvent := match rV4.2 with
    | some e => [.failedGetIP (.wrap "IPv4" e)]
    | none => [.successGetIP]
  let fetchEvents6 : List NotifyEvent := match rV6.2 with
    | some e => [.failedGetIP (.wrap "IPv6" e)]
    | none => [.successGetIP]
  let s4 := tickUpdateStep provider st .v4 rV4 zone "IPv4"
  let s6 := tickUpdateStep provider s4.1 .v6 rV6 zone "IPv6"
  ⟨s6.1, s4.2.1 ++ s6.2.1,
    fetchEvents4 ++ fetchEvents6 ++ s4.2.2.1 ++ s6.2.2.1,
    s4.2.2.2 ++ s6.2.2.2⟩

/-! ### server.go: HandleIndex -/

structure Response where
  status : Nat
  body : String
deriving DecidableEq, Repr

/-- Body written by `httpError`; the brace characters appear via
character escapes. -/
def jsonError (message : String) : String :=
  "\x7b\"error\": \"" ++ message ++ "\"\x7d"

/-- Body written by `httpSuccess`. -/
def jsonMessage (message : String) : String :=
  "\x7b\"message\": \"" ++ message ++ "\"\x7d"

/-- Result of one `HandleIndex` request: the HTTP response plus the
updater state and effects (the handler shares the process-wide
`DNSUpdater`). -/
structure HandleResult where
  response : Response
  state : DNSUpdaterState
  calls : List ProviderCall
  events : List NotifyEvent
deriving DecidableEq, Repr

/-- `HandleIndex` (server.go): require `zone` and `ip` query parameters,
require `ip` to parse as an IPv4 address (`!addr.Is4() || err != nil`
rejects both parse failures and non-IPv4 addresses), then invoke
`UpdateIP4`; a failed update is a 500 carrying `err.Error()`. -/
def HandleIndex (provider : Provider) (st : DNSUpdaterState)
    (zoneQ ipQ : Option String) : HandleResult :=
  match zoneQ with
  | none => ⟨⟨400, jsonError "missing zone parameter in query"⟩, st, [], []⟩
  | some zone =>
    match ipQ with
    | none => ⟨⟨400, jsonError "missing ip parameter in query"⟩, st, [], []⟩
    | some ipStr =>
      let parsed := ParseAddr ipStr
      let addr := parsed.getD Addr.unset
      if addr.is4 = false ∨ parsed = none then
        ⟨⟨400, jsonError ("invalid ipv4 address " ++ ipStr)⟩, st, [], []⟩
      else
        let r := UpdateIP4 provider st addr zone
        match r.err with
        | some e => ⟨⟨500, jsonError (goErrorString e)⟩, r.state, r.calls, r.events⟩
        | none => ⟨⟨200, jsonMessage "record updated"⟩, r.state, r.calls, r.events⟩

/-! ### Harness definitions for stating claims -/

def otherFamily : Family → Family
  | .v4 => .v6
  | .v6 => .v4

/-- The instants at which a sequence of consecutive `NotifyFailedGetIP`
calls (at the given instants, threading the notifier state) actually posts
an alert. -/
def failedGetIPAlertTimes (n : NtfyNotifier) (e : GoError) : List Int → List Int
  | [] => []
  | t :: ts =>
    let r := NotifyFailedGetIP t n e
    (if r.2 = [] then [] else [t]) ++ failedGetIPAlertTimes r.1 e ts

/-- The instants at which a sequence of consecutive `NotifyFailedUpdateIP`
calls actually posts an alert. -/
def failedUpdateIPAlertTimes (n : NtfyNotifier) (e : GoError) : List Int → List Int
  | [] => []
  | t :: ts =>
    let r := NotifyFailedUpdateIP t n e
    (if r.2 = [] then [] else [t]) ++ failedUpdateIPAlertTimes r.1 e ts

/-- Concrete fetch oracle used in witnesses: the v4 endpoint answers with
a bare IPv4 literal, every other endpoint is unreachable. -/
def witnessHttpGet : HttpGet := fun u =>
  if u = "u4" then .ok "1.2.3.4" else .error (.msg "unreachable")

/-- Concrete provider that accepts every write, used in witnesses. -/
def acceptAllProvider : Provider := fun _ _ _ => none

/-- Concrete provider that rejects every write, used in witnesses. -/
def rejectAllProvider : Provider := fun _ _ _ => some (.msg "boom")

/-! ## Theorems -/

/-- Helper: an update only ever writes its own family's slot. -/
theorem updateIP_state_otherFamily (provider : Provider) (st : DNSUpdaterState)
    (fam : Family) (ip : Addr) (zone : String) :
    getSlot (updateIP provider st fam ip zone).state (otherFamily fam) =
      getSlot st (otherFamily fam) := by
  unfold updateIP
  split
  · rfl
  · cases provider zone (addrString ip) (recordTypeOf fam) <;>
      cases fam <;> simp [getSlot, setSlot, otherFamily]

/-- Helper: the slow path with an accepting provider stores the address,
succeeds, issues exactly the one write, and notifies. -/
theorem updateIP_slow_path_ok (provider : Provider) (st : DNSUpdaterState)
    (fam : Family) (ip : Addr) (zone : String)
    (hne : getSlot st fam ≠ ip)
    (hok : provider zone (addrString ip) (recordTypeOf fam) = none) :
    updateIP provider st fam ip zone =
      ⟨setSlot st fam ip, none, [⟨zone, addrString ip, recordTypeOf fam⟩],
        [.successUpdateIP ip]⟩ := by
  simp [updateIP, hne, hok]

/-- Helper: reading back the slot just written. -/
theorem getSlot_setSlot_self (st : DNSUpdaterState) (fam : Family) (ip : Addr) :
    getSlot (setSlot st fam ip) fam = ip := by
  cases fam <;> simp [getSlot, setSlot]

/-- Claim C1: for every family and every address equal to the stored last
address for that family, `updateIP` returns success immediately with no
provider write and no notification; and (starting from a state not yet
holding the address, with the provider accepting the write) calling update
twice in a row with the same address issues exactly one provider write:
the second call succeeds without contacting the provider. -/
theorem updateIP_fast_path_and_idempotent (provider : Provider)
    (st : DNSUpdaterState) (fam : Family) (ip : Addr) (zone : String)
    (hne : getSlot st fam ≠ ip)
    (hok : provider zone (addrString ip) (recordTypeOf fam) = none) :
    (∀ st' ip', getSlot st' fam = ip' →
      updateIP provider st' fam ip' zone = ⟨st', none, [], []⟩) ∧
    ((updateIP provider st fam ip zone).calls.length = 1 ∧
      (updateIP provider st fam ip zone).err = none ∧
      (updateIP provider (updateIP provider st fam ip zone).state fam ip zone).calls = [] ∧
      (updateIP provider (updateIP provider st fam ip zone).state fam ip zone).err = none) := by
  constructor
  · intro st' ip' h
    simp [updateIP, h]
  · have h1 := updateIP_slow_path_ok provider st fam ip zone hne hok
    have h2 : updateIP provider (updateIP provider st fam ip zone).state fam ip zone =
        ⟨(updateIP provider st fam ip zone).state, none, [], []⟩ := by
      rw [h1]
      simp [updateIP, getSlot_setSlot_self]
    rw [h2, h1]
    simp

/-- Witness for C1 at a concrete state, address and provider. -/
theorem updateIP_fast_path_and_idempotent_witness :
    (updateIP (fun _ _ _ => none) initialDNSUpdaterState .v4 (Addr.v4 1 2 3 4)
        "example.com").calls.length = 1 ∧
    (updateIP (fun _ _ _ => none)
        (updateIP (fun _ _ _ => none) initialDNSUpdaterState .v4 (Addr.v4 1 2 3 4)
          "example.com").state .v4 (Addr.v4 1 2 3 4) "example.com").calls = [] :=
  ⟨(updateIP_fast_path_and_idempotent (fun _ _ _ => none) initialDNSUpdaterState
      .v4 (Addr.v4 1 2 3 4) "example.com" (by decide) rfl).2.1,
   (updateIP_fast_path_and_idempotent (fun _ _ _ => none) initialDNSUpdaterState
      .v4 (Addr.v4 1 2 3 4) "example.com" (by decide) rfl).2.2.2.1⟩

/-- Claim C4: when the provider write fails, `updateIP` leaves the state
exactly as before, returns an error wrapping the provider error, and emits
no notification (and in particular no success notification). -/
theorem updateIP_provider_failure (provider : Provider) (st : DNSUpdaterState)
    (fam : Family) (ip : Addr) (zone : String) (e : GoError)
    (hne : getSlot st fam ≠ ip)
    (hfail : provider zone (addrString ip) (recordTypeOf fam) = some e) :
    updateIP provider st fam ip zone =
      ⟨st, some (.wrap ("failed to update " ++ recordTypeOf fam ++ " record") e),
        [⟨zone, addrString ip, recordTypeOf fam⟩], []⟩ := by
  simp [updateIP, hne, hfail]

/-- Witness for C4 at a concrete state, address and failing provider. -/
theorem updateIP_provider_failure_witness :
    updateIP (fun _ _ _ => some (.msg "boom")) initialDNSUpdaterState .v4
        (Addr.v4 1 2 3 4) "example.com" =
      ⟨initialDNSUpdaterState,
        some (.wrap "failed to update A record" (.msg "boom")),
        [⟨"example.com", "1.2.3.4", "A"⟩], []⟩ :=
  updateIP_provider_failure (fun _ _ _ => some (.msg "boom"))
    initialDNSUpdaterState .v4 (Addr.v4 1 2 3 4) "example.com" (.msg "boom")
    (by decide) rfl

/-- Claim C6: an update for one family never touches the other family's
slot, and a provider failure for the AAAA update leaves the state intact,
so a subsequent A update has exactly the same outcome as it would have had
without the failed AAAA attempt. -/
theorem updateIP_family_independence (provider : Provider)
    (st : DNSUpdaterState) (ip4 ip6 : Addr) (zone : String) (e : GoError)
    (hne6 : getSlot st .v6 ≠ ip6)
    (hfail6 : provider zone (addrString ip6) (recordTypeOf .v6) = some e) :
    (∀ st' fam ip', getSlot (updateIP provider st' fam ip' zone).state
        (otherFamily fam) = getSlot st' (otherFamily fam)) ∧
    updateIP provider (UpdateIP6 provider st ip6 zone).state .v4 ip4 zone =
      updateIP provider st .v4 ip4 zone := by
  constructor
  · intro st' fam ip'
    exact updateIP_state_otherFamily provider st' fam ip' zone
  · have h6 : (UpdateIP6 provider st ip6 zone).state = st := by
      simp [UpdateIP6, updateIP, hne6, hfail6]
    rw [h6]

/-- Witness for C6: a failing AAAA write does not change the outcome of an
A update for the same zone. -/
theorem updateIP_family_independence_witness :
    updateIP (fun _ _ rt => if rt = "AAAA" then some (.msg "boom") else none)
        (UpdateIP6 (fun _ _ rt => if rt = "AAAA" then some (.msg "boom") else none)
          initialDNSUpdaterState (Addr.v6 (List.replicate 16 0) "") "z").state
        .v4 (Addr.v4 1 2 3 4) "z" =
      updateIP (fun _ _ rt => if rt = "AAAA" then some (.msg "boom") else none)
        initialDNSUpdaterState .v4 (Addr.v4 1 2 3 4) "z" :=
  (updateIP_family_independence
    (fun _ _ rt => if rt = "AAAA" then some (.msg "boom") else none)
    initialDNSUpdaterState (Addr.v4 1 2 3 4) (Addr.v6 (List.replicate 16 0) "")
    "z" (.msg "boom") (by decide) rfl).2

/-- Claim C9: `NotifySuccessUpdateIP` always posts exactly one message: a
"Repaired" message when more time has elapsed since the last update
success than since the last update-failure alert, and a "New IP address"
message otherwise; the update-success channel is never silent. -/
theorem notifySuccessUpdateIP_always_emits (n : NtfyNotifier) (now : Int)
    (ip : Addr) :
    (NotifySuccessUpdateIP now n ip).2.length = 1 ∧
    (now - n.failedUpdateIP < now - n.lastUpdateIP →
      (NotifySuccessUpdateIP now n ip).2 =
        [("globe_with_meridians",
          "Repaired: IP address updated to " ++ addrString ip)]) ∧
    (¬now - n.failedUpdateIP < now - n.lastUpdateIP →
      (NotifySuccessUpdateIP now n ip).2 =
        [("globe_with_meridians", "New IP address: " ++ addrString ip)]) := by
  by_cases h : now - n.failedUpdateIP < now - n.lastUpdateIP <;>
    simp [NotifySuccessUpdateIP, h]

/-- Witness for C9 on both branches. -/
theorem notifySuccessUpdateIP_always_emits_witness :
    (NotifySuccessUpdateIP 60 ⟨"t", 100, 0, 0, 0, 50⟩ (Addr.v4 1 2 3 4)).2 =
      [("globe_with_meridians", "Repaired: IP address updated to 1.2.3.4")] ∧
    (NotifySuccessUpdateIP 60 ⟨"t", 100, 0, 50, 0, 0⟩ (Addr.v4 1 2 3 4)).2 =
      [("globe_with_meridians", "New IP address: 1.2.3.4")] :=
  ⟨(notifySuccessUpdateIP_always_emits ⟨"t", 100, 0, 0, 0, 50⟩ 60
      (Addr.v4 1 2 3 4)).2.1 (by decide),
   (notifySuccessUpdateIP_always_emits ⟨"t", 100, 0, 50, 0, 0⟩ 60
      (Addr.v4 1 2 3 4)).2.2 (by decide)⟩

/-- Helper: along any sequence of consecutive fetch-failure calls, alerts
are spaced more than `grace` apart, and the first alert is more than
`grace` after the last recorded alert. -/
theorem failedGetIPAlertTimes_spaced (e : GoError) (ts : List Int) :
    ∀ n : NtfyNotifier,
      List.Chain' (fun a b => n.grace < b - a) (failedGetIPAlertTimes n e ts) ∧
      ∀ a, (failedGetIPAlertTimes n e ts).head? = some a →
        n.grace < a - n.failedGetIP := by
  induction ts with
  | nil => intro n; simp [failedGetIPAlertTimes]
  | cons t ts ih =>
    intro n
    by_cases h : n.grace < t - n.lastGetIP ∧ n.grace < t - n.failedGetIP
    · have hstep : failedGetIPAlertTimes n e (t :: ts) =
          t :: failedGetIPAlertTimes { n with failedGetIP := t } e ts := by
        simp [failedGetIPAlertTimes, NotifyFailedGetIP, h]
      obtain ⟨ihc, ihh⟩ := ih { n with failedGetIP := t }
      rw [hstep]
      refine ⟨List.chain'_cons'.mpr ⟨fun b hb => ?_, ihc⟩, fun a ha => ?_⟩
      · simpa using ihh b hb
      · simp only [List.head?_cons, Option.some.injEq] at ha
        exact ha ▸ h.2
    · have hstep : failedGetIPAlertTimes n e (t :: ts) =
          failedGetIPAlertTimes n e ts := by
        simp [failedGetIPAlertTimes, NotifyFailedGetIP, h]
      rw [hstep]
      exact ih n

/-- Helper: the same spacing along consecutive update-failure calls. -/
theorem failedUpdateIPAlertTimes_spaced (e : GoError) (ts : List Int) :
    ∀ n : NtfyNotifier,
      List.Chain' (fun a b => n.grace < b - a) (failedUpdateIPAlertTimes n e ts) ∧
      ∀ a, (failedUpdateIPAlertTimes n e ts).head? = some a →
        n.grace < a - n.failedUpdateIP := by
  induction ts with
  | nil => intro n; simp [failedUpdateIPAlertTimes]
  | cons t ts ih =>
    intro n
    by_cases h : n.grace < t - n.lastUpdateIP ∧ n.grace < t - n.failedUpdateIP
    · have hstep : failedUpdateIPAlertTimes n e (t :: ts) =
          t :: failedUpdateIPAlertTimes { n with failedUpdateIP := t } e ts := by
        simp [failedUpdateIPAlertTimes, NotifyFailedUpdateIP, h]
      obtain ⟨ihc, ihh⟩ := ih { n with failedUpdateIP := t }
      rw [hstep]
      refine ⟨List.chain'_cons'.mpr ⟨fun b hb => ?_, ihc⟩, fun a ha => ?_⟩
      · simpa using ihh b hb
      · simp only [List.head?_cons, Option.some.injEq] at ha
        exact ha ▸ h.2
    · have hstep : failedUpdateIPAlertTimes n e (t :: ts) =
          failedUpdateIPAlertTimes n e ts := by
        simp [failedUpdateIPAlertTimes, NotifyFailedUpdateIP, h]
      rw [hstep]
      exact ih n

/-- Claim C2: a failure call (on either channel) posts an alert if and
only if both the time since the last success on that channel and the time
since the last failure alert on that channel exceed the grace period; and
along any sequence of consecutive failure calls, successive alerts are
separated by more than the grace period, so at most one alert is posted
per grace window. -/
theorem notifyFailure_grace_gate (n : NtfyNotifier) (now : Int) (e : GoError)
    (ts : List Int) :
    ((NotifyFailedGetIP now n e).2 ≠ [] ↔
      n.grace < now - n.lastGetIP ∧ n.grace < now - n.failedGetIP) ∧
    ((NotifyFailedUpdateIP now n e).2 ≠ [] ↔
      n.grace < now - n.lastUpdateIP ∧ n.grace < now - n.failedUpdateIP) ∧
    List.Chain' (fun a b => n.grace < b - a) (failedGetIPAlertTimes n e ts) ∧
    List.Chain' (fun a b => n.grace < b - a) (failedUpdateIPAlertTimes n e ts) := by
  refine ⟨?_, ?_, (failedGetIPAlertTimes_spaced e ts n).1,
    (failedUpdateIPAlertTimes_spaced e ts n).1⟩
  · by_cases h : n.grace < now - n.lastGetIP ∧ n.grace < now - n.failedGetIP <;>
      simp [NotifyFailedGetIP, h]
  · by_cases h : n.grace < now - n.lastUpdateIP ∧ n.grace < now - n.failedUpdateIP <;>
      simp [NotifyFailedUpdateIP, h]

/-- Claim C3 (counterexample): with grace period 100, last update success
at instant 0 and last update-failure alert at instant 50, a success call
at instant 60 posts a "Repaired" notification even though the elapsed
time since the last success (60) does not exceed the grace period — the
update channel compares against the failure-alert instant, not the grace
period, so the claim's "repaired iff elapsed since last success exceeds
the grace period" is false as stated. -/
theorem notifySuccess_graceClaim_counterexample :
    (NotifySuccessUpdateIP 60 ⟨"t", 100, 0, 0, 0, 50⟩ (Addr.v4 1 2 3 4)).2 =
      [("globe_with_meridians", "Repaired: IP address updated to 1.2.3.4")] ∧
    ¬((100 : Int) < 60 - 0) := by
  exact ⟨rfl, by decide⟩

/-- Claim C3 (amended): on the fetch channel a "Repaired" notification is
posted exactly when the time since the last fetch success exceeds the
grace period, and `lastGetIP` is reset to `now` unconditionally; on the
update channel `lastUpdateIP` is likewise reset unconditionally, but a
message is always posted — "Repaired" when the time since the last update
success exceeds the time since the last update-failure alert, "New IP
address" otherwise. -/
theorem notifySuccess_repaired_amended (n : NtfyNotifier) (now : Int)
    (ip : Addr) :
    (n.grace < now - n.lastGetIP →
      (NotifySuccessGetIP now n).2 =
        [("globe_with_meridians", "Repaired: Get IP address")]) ∧
    (¬n.grace < now - n.lastGetIP → (NotifySuccessGetIP now n).2 = []) ∧
    (NotifySuccessGetIP now n).1 = { n with lastGetIP := now } ∧
    (NotifySuccessUpdateIP now n ip).1 = { n with lastUpdateIP := now } ∧
    (now - n.failedUpdateIP < now - n.lastUpdateIP →
      (NotifySuccessUpdateIP now n ip).2 =
        [("globe_with_meridians",
          "Repaired: IP address updated to " ++ addrString ip)]) ∧
    (¬now - n.failedUpdateIP < now - n.lastUpdateIP →
      (NotifySuccessUpdateIP now n ip).2 =
        [("globe_with_meridians", "New IP address: " ++ addrString ip)]) := by
  refine ⟨fun h => ?_, fun h => ?_, rfl, rfl, fun h => ?_, fun h => ?_⟩ <;>
    simp [NotifySuccessGetIP, NotifySuccessUpdateIP, h]

/-- Witness for the amended C3, exercising all four emission branches. -/
theorem notifySuccess_repaired_amended_witness :
    (NotifySuccessGetIP 160 ⟨"t", 100, 0, 0, 0, 0⟩).2 =
      [("globe_with_meridians", "Repaired: Get IP address")] ∧
    (NotifySuccessGetIP 60 ⟨"t", 100, 0, 0, 0, 0⟩).2 = [] ∧
    (NotifySuccessUpdateIP 60 ⟨"t", 100, 0, 0, 0, 50⟩ (Addr.v4 1 2 3 4)).2 =
      [("globe_with_meridians", "Repaired: IP address updated to 1.2.3.4")] ∧
    (NotifySuccessUpdateIP 60 ⟨"t", 100, 0, 50, 0, 0⟩ (Addr.v4 1 2 3 4)).2 =
      [("globe_with_meridians", "New IP address: 1.2.3.4")] :=
  ⟨(notifySuccess_repaired_amended ⟨"t", 100, 0, 0, 0, 0⟩ 160 (Addr.v4 1 2 3 4)).1
      (by decide),
   (notifySuccess_repaired_amended ⟨"t", 100, 0, 0, 0, 0⟩ 60 (Addr.v4 1 2 3 4)).2.1
      (by decide),
   (notifySuccess_repaired_amended ⟨"t", 100, 0, 0, 0, 50⟩ 60 (Addr.v4 1 2 3 4)).2.2.2.2.1
      (by decide),
   (notifySuccess_repaired_amended ⟨"t", 100, 0, 50, 0, 0⟩ 60 (Addr.v4 1 2 3 4)).2.2.2.2.2
      (by decide)⟩

/-- Helper: the post-loop stage of `parseIPv6` only ever builds a `v6`
address. -/
theorem parse6Finish_shape (bytes : List Nat) (ell : Option Nat)
    (sRem : List Char) (zone : String) (a : Addr)
    (h : parseIPv6.parse6Finish bytes ell sRem zone = some a) :
    ∃ bs z, a = Addr.v6 bs z := by
  unfold parseIPv6.parse6Finish at h
  split_ifs at h
  · cases ell with
    | none => exact absurd h (by simp)
    | some e => exact ⟨_, _, (Option.some.inj h).symm⟩
  · exact ⟨_, _, (Option.some.inj h).symm⟩

/-- Helper: `parseIPv6` only ever builds a `v6` address. -/
theorem parseIPv6_shape (l : List Char) (a : Addr) (h : parseIPv6 l = some a) :
    ∃ bs z, a = Addr.v6 bs z := by
  unfold parseIPv6 at h
  rcases hs : splitZone l with ⟨s0, zoneOpt⟩
  rw [hs] at h
  simp only at h
  split_ifs at h
  split at h
  · split_ifs at h
    · exact ⟨_, _, (Option.some.inj h).symm⟩
    · split at h
      · exact absurd h (by simp)
      · exact parse6Finish_shape _ _ _ _ _ h
  · split at h
    · exact absurd h (by simp)
    · exact parse6Finish_shape _ _ _ _ _ h

/-- Helper: `parseIPv4` only ever builds a `v4` address. -/
theorem parseIPv4_shape (l : List Char) (a : Addr) (h : parseIPv4 l = some a) :
    ∃ b0 b1 b2 b3, a = Addr.v4 b0 b1 b2 b3 := by
  unfold parseIPv4 at h
  split at h
  · exact ⟨_, _, _, _, (Option.some.inj h).symm⟩
  · exact absurd h (by simp)

/-- Helper: a parsed address is never the zero `Addr`. -/
theorem ParseAddr_isValid (s : String) (a : Addr) (h : ParseAddr s = some a) :
    a.isValid = true := by
  unfold ParseAddr at h
  split at h
  · obtain ⟨b0, b1, b2, b3, rfl⟩ := parseIPv4_shape _ _ h
    rfl
  · obtain ⟨bs, z, rfl⟩ := parseIPv6_shape _ _ h
    rfl
  · exact absurd h (by simp)

/-- Helper: an `Is4` parse result came through `parseIPv4`. -/
theorem ParseAddr_is4_via_parseIPv4 (s : String) (a : Addr)
    (h : ParseAddr s = some a) (h4 : a.is4 = true) :
    parseIPv4 s.data = some a := by
  unfold ParseAddr at h
  split at h
  · exact h
  · obtain ⟨bs, z, rfl⟩ := parseIPv6_shape _ _ h
    exact absurd h4 (by simp [Addr.is4])
  · exact absurd h (by simp)

/-- Helper: a fetch reporting no error carries a valid address. -/
theorem GetExternalIP_ok_valid (httpGet : HttpGet) (url : String)
    (h : (GetExternalIP httpGet url).2 = none) :
    (GetExternalIP httpGet url).1.isValid = true := by
  unfold GetExternalIP at h ⊢
  cases hg : httpGet url with
  | error e => simp [hg] at h
  | ok body =>
    simp only [hg] at h ⊢
    cases hp : ParseAddr body with
    | none => simp [hp] at h
    | some ip =>
      simp only at h ⊢
      exact ParseAddr_isValid _ _ hp

/-- Helper: an update that returns no error leaves the family slot holding
the requested address (either it already did, or it was just stored). -/
theorem updateIP_ok_slot (provider : Provider) (st : DNSUpdaterState)
    (fam : Family) (ip : Addr) (zone : String)
    (h : (updateIP provider st fam ip zone).err = none) :
    getSlot (updateIP provider st fam ip zone).state fam = ip := by
  by_cases hfp : getSlot st fam = ip
  · simp [updateIP, hfp]
  · cases hp : provider zone (addrString ip) (recordTypeOf fam) with
    | some e => simp [updateIP, hfp, hp] at h
    | none => simp [updateIP, hfp, hp, getSlot_setSlot_self]

/-- Helper: every provider call issued by an update carries the record
type of its family. -/
theorem updateIP_calls_recordType (provider : Provider) (st : DNSUpdaterState)
    (fam : Family) (ip : Addr) (zone : String) :
    ∀ c ∈ (updateIP provider st fam ip zone).calls,
      c.recordType = recordTypeOf fam := by
  unfold updateIP
  split
  · simp
  · cases provider zone (addrString ip) (recordTypeOf fam) <;> simp

/-- Claim C5: on a poll tick, after both fetches are joined, the updater
is invoked exactly for the families whose fetch succeeded; each fetch
outcome is routed to the matching notifier method (failure with the
family tag wrapped, success as a get-success); and a v6 fetch failure does
not prevent a fresh, provider-accepted v4 address from being stored and
notified as an update success in the same tick. -/
theorem tick_per_family_routing (httpGet : HttpGet) (provider : Provider)
    (st : DNSUpdaterState) (url url6 zone : String) :
    ((Family.v4 ∈ (tick httpGet provider st url url6 zone).invoked ↔
        (GetExternalIP httpGet url).2 = none) ∧
      (Family.v6 ∈ (tick httpGet provider st url url6 zone).invoked ↔
        (GetExternalIP httpGet url6).2 = none)) ∧
    ((∀ e, (GetExternalIP httpGet url).2 = some e →
        NotifyEvent.failedGetIP (.wrap "IPv4" e) ∈
          (tick httpGet provider st url url6 zone).events) ∧
      ((GetExternalIP httpGet url).2 = none →
        NotifyEvent.successGetIP ∈ (tick httpGet provider st url url6 zone).events) ∧
      (∀ e, (GetExternalIP httpGet url6).2 = some e →
        NotifyEvent.failedGetIP (.wrap "IPv6" e) ∈
          (tick httpGet provider st url url6 zone).events) ∧
      ((GetExternalIP httpGet url6).2 = none →
        NotifyEvent.successGetIP ∈ (tick httpGet provider st url url6 zone).events)) ∧
    (∀ e6, (GetExternalIP httpGet url).2 = none →
      (GetExternalIP httpGet url6).2 = some e6 →
      getSlot st .v4 ≠ (GetExternalIP httpGet url).1 →
      provider zone (addrString (GetExternalIP httpGet url).1) "A" = none →
      getSlot (tick httpGet provider st url url6 zone).state .v4 =
          (GetExternalIP httpGet url).1 ∧
        NotifyEvent.successUpdateIP (GetExternalIP httpGet url).1 ∈
          (tick httpGet provider st url url6 zone).events) := by
  rcases h4 : GetExternalIP httpGet url with ⟨a4, e4⟩
  rcases h6 : GetExternalIP httpGet url6 with ⟨a6, e6⟩
  have hval4 : e4 = none → a4.isValid = true := by
    intro he
    have := GetExternalIP_ok_valid httpGet url (by rw [h4, he])
    rw [h4] at this
    exact this
  have hval6 : e6 = none → a6.isValid = true := by
    intro he
    have := GetExternalIP_ok_valid httpGet url6 (by rw [h6, he])
    rw [h6] at this
    exact this
  simp only [tick, h4, h6]
  cases e4 with
  | some eV4 =>
    cases e6 with
    | some eV6 =>
      simp [tickUpdateStep]
    | none =>
      have hv6 := hval6 rfl
      simp only [tickUpdateStep, hv6]
      cases herr6 : (updateIP provider st Family.v6 a6 zone).err <;>
        simp [herr6]
  | none =>
    have hv4 := hval4 rfl
    cases e6 with
    | some eV6 =>
      simp only [tickUpdateStep, hv4]
      cases herr4 : (updateIP provider st Family.v4 a4 zone).err with
      | some eU4 =>
        simp only [herr4]
        refine ⟨by simp, by simp, ?_⟩
        intro e6' _ _ hne hok
        have := updateIP_slow_path_ok provider st .v4 a4 zone hne
          (by simpa [recordTypeOf] using hok)
        rw [this] at herr4
        exact absurd herr4 (by simp)
      | none =>
        simp only [herr4]
        refine ⟨by simp, by simp, ?_⟩
        intro e6' _ _ hne hok
        have hsp := updateIP_slow_path_ok provider st .v4 a4 zone hne
          (by simpa [recordTypeOf] using hok)
        rw [hsp]
        simp [getSlot_setSlot_self]
    | none =>
      have hv6 := hval6 rfl
      simp only [tickUpdateStep, hv4, hv6]
      cases herr4 : (updateIP provider st Family.v4 a4 zone).err with
      | some eU4 =>
        simp only [herr4]
        cases herr6 : (updateIP provider ((updateIP provider st Family.v4 a4 zone).state)
            Family.v6 a6 zone).err <;> simp [herr6]
      | none =>
        simp only [herr4]
        cases herr6 : (updateIP provider ((updateIP provider st Family.v4 a4 zone).state)
            Family.v6 a6 zone).err <;> simp [herr6]

/-- Witness for C5: with the v4 endpoint answering `1.2.3.4` and the v6
endpoint unreachable, the tick still stores and notifies the v4 address. -/
theorem tick_per_family_routing_witness :
    Family.v4 ∈ (tick witnessHttpGet acceptAllProvider initialDNSUpdaterState
        "u4" "u6" "z").invoked ∧
    getSlot (tick witnessHttpGet acceptAllProvider initialDNSUpdaterState
        "u4" "u6" "z").state .v4 = (GetExternalIP witnessHttpGet "u4").1 ∧
    NotifyEvent.successUpdateIP (GetExternalIP witnessHttpGet "u4").1 ∈
      (tick witnessHttpGet acceptAllProvider initialDNSUpdaterState
        "u4" "u6" "z").events ∧
    NotifyEvent.failedGetIP (.wrap "IPv6" (.msg "unreachable")) ∈
      (tick witnessHttpGet acceptAllProvider initialDNSUpdaterState
        "u4" "u6" "z").events :=
  ⟨(tick_per_family_routing witnessHttpGet acceptAllProvider
      initialDNSUpdaterState "u4" "u6" "z").1.1.mpr rfl,
   ((tick_per_family_routing witnessHttpGet acceptAllProvider
      initialDNSUpdaterState "u4" "u6" "z").2.2 (.msg "unreachable") rfl rfl
      (by decide) rfl).1,
   ((tick_per_family_routing witnessHttpGet acceptAllProvider
      initialDNSUpdaterState "u4" "u6" "z").2.2 (.msg "unreachable") rfl rfl
      (by decide) rfl).2,
   (tick_per_family_routing witnessHttpGet acceptAllProvider
      initialDNSUpdaterState "u4" "u6" "z").2.1.2.2.1 (.msg "unreachable") rfl⟩

/-- Claim C8: the webhook handler answers 400 with a JSON error body and
attempts no update when the zone or ip parameter is missing or the ip is
not an IPv4 literal; 500 with a JSON error body when the update path
fails; and 200 with the record-updated message otherwise. -/
theorem handleIndex_responses (provider : Provider) (st : DNSUpdaterState) :
    (∀ ipQ, HandleIndex provider st none ipQ =
      ⟨⟨400, jsonError "missing zone parameter in query"⟩, st, [], []⟩) ∧
    (∀ zone, HandleIndex provider st (some zone) none =
      ⟨⟨400, jsonError "missing ip parameter in query"⟩, st, [], []⟩) ∧
    (∀ zone ipStr, ((ParseAddr ipStr).getD Addr.unset).is4 = false ∨
        ParseAddr ipStr = none →
      HandleIndex provider st (some zone) (some ipStr) =
        ⟨⟨400, jsonError ("invalid ipv4 address " ++ ipStr)⟩, st, [], []⟩) ∧
    (∀ zone ipStr a e, ParseAddr ipStr = some a → a.is4 = true →
      (UpdateIP4 provider st a zone).err = some e →
      (HandleIndex provider st (some zone) (some ipStr)).response =
        ⟨500, jsonError (goErrorString e)⟩) ∧
    (∀ zone ipStr a, ParseAddr ipStr = some a → a.is4 = true →
      (UpdateIP4 provider st a zone).err = none →
      (HandleIndex provider st (some zone) (some ipStr)).response =
        ⟨200, jsonMessage "record updated"⟩) := by
  refine ⟨fun ipQ => rfl, fun zone => rfl, fun zone ipStr h => ?_,
    fun zone ipStr a e hp h4 herr => ?_, fun zone ipStr a hp h4 herr => ?_⟩
  · simp only [HandleIndex]
    rw [if_pos h]
  · simp only [HandleIndex, hp, Option.getD_some]
    rw [if_neg (by simp [h4])]
    simp only [herr]
  · simp only [HandleIndex, hp, Option.getD_some]
    rw [if_neg (by simp [h4])]
    simp only [herr]

/-- Witness for C8 on the 400, 500 and 200 branches. -/
theorem handleIndex_responses_witness :
    HandleIndex acceptAllProvider initialDNSUpdaterState none none =
      ⟨⟨400, jsonError "missing zone parameter in query"⟩,
        initialDNSUpdaterState, [], []⟩ ∧
    HandleIndex acceptAllProvider initialDNSUpdaterState (some "z") (some "abc") =
      ⟨⟨400, jsonError "invalid ipv4 address abc"⟩,
        initialDNSUpdaterState, [], []⟩ ∧
    HandleIndex acceptAllProvider initialDNSUpdaterState (some "z") (some "::1") =
      ⟨⟨400, jsonError "invalid ipv4 address ::1"⟩,
        initialDNSUpdaterState, [], []⟩ ∧
    (HandleIndex rejectAllProvider initialDNSUpdaterState (some "z")
        (some "1.2.3.4")).response =
      ⟨500, jsonError "failed to update A record: boom"⟩ ∧
    (HandleIndex acceptAllProvider initialDNSUpdaterState (some "z")
        (some "1.2.3.4")).response =
      ⟨200, jsonMessage "record updated"⟩ :=
  ⟨(handleIndex_responses acceptAllProvider initialDNSUpdaterState).1 none,
   (handleIndex_responses acceptAllProvider initialDNSUpdaterState).2.2.1
      "z" "abc" (Or.inr rfl),
   (handleIndex_responses acceptAllProvider initialDNSUpdaterState).2.2.1
      "z" "::1" (Or.inl (by decide)),
   (handleIndex_responses rejectAllProvider initialDNSUpdaterState).2.2.2.1
      "z" "1.2.3.4" (Addr.v4 1 2 3 4)
      (.wrap "failed to update A record" (.msg "boom")) rfl rfl (by decide),
   (handleIndex_responses acceptAllProvider initialDNSUpdaterState).2.2.2.2
      "z" "1.2.3.4" (Addr.v4 1 2 3 4) rfl rfl (by decide)⟩

/-- Helper: every provider call a tick update step issues carries the
record type of its family. -/
theorem tickUpdateStep_calls_recordType (provider : Provider)
    (st : DNSUpdaterState) (fam : Family) (fetched : Addr × Option GoError)
    (zone famTag : String) :
    ∀ c ∈ (tickUpdateStep provider st fam fetched zone famTag).2.1,
      c.recordType = recordTypeOf fam := by
  rcases fetched with ⟨addr, fetchErr⟩
  unfold tickUpdateStep
  dsimp only
  split_ifs with hcond
  · cases herr : (updateIP provider st fam addr zone).err <;>
      simp only [herr] <;>
      exact updateIP_calls_recordType provider st fam addr zone
  · simp

/-- Helper: an IPv4 address is valid. -/
theorem Addr_is4_isValid (a : Addr) (h : a.is4 = true) : a.isValid = true := by
  cases a <;> simp_all [Addr.is4, Addr.isValid]

/-- Claim C10: the webhook handler and the poll loop act on the same
updater state. A webhook request whose ip equals the stored v4 address
answers 200 without any provider call or notification; and after any
webhook request that answered 200 for that ip, a poll tick fetching the
same v4 address issues no A-record provider call. -/
theorem webhook_poll_share_dedup (provider : Provider) (st : DNSUpdaterState)
    (zone zone' url url6 ipStr body : String) (a : Addr) (httpGet : HttpGet)
    (hp : ParseAddr ipStr = some a) (h4 : a.is4 = true) :
    (getSlot st .v4 = a →
      HandleIndex provider st (some zone) (some ipStr) =
        ⟨⟨200, jsonMessage "record updated"⟩, st, [], []⟩) ∧
    ((HandleIndex provider st (some zone) (some ipStr)).response.status = 200 →
      httpGet url = .ok body → ParseAddr body = some a →
      (tick httpGet provider
          (HandleIndex provider st (some zone) (some ipStr)).state
          url url6 zone').calls.filter (fun c => c.recordType == "A") = []) := by
  constructor
  · intro hslot
    simp only [HandleIndex, hp, Option.getD_some]
    rw [if_neg (by simp [h4])]
    simp [UpdateIP4, updateIP, hslot]
  · intro hresp hg hbody
    -- after a 200 response the shared v4 slot holds the requested address
    have hslot : getSlot (HandleIndex provider st (some zone) (some ipStr)).state
        .v4 = a := by
      revert hresp
      simp only [HandleIndex, hp, Option.getD_some]
      rw [if_neg (by simp [h4])]
      cases herr : (UpdateIP4 provider st a zone).err with
      | some e => intro hresp; exact absurd hresp (by simp)
      | none =>
        intro _
        exact updateIP_ok_slot provider st .v4 a zone herr
    have hfetch : GetExternalIP httpGet url = (a, none) := by
      simp [GetExternalIP, hg, hbody]
    -- the v4 leg of the tick takes the fast path, the v6 leg writes AAAA
    refine List.filter_eq_nil_iff.mpr ?_
    intro c hc
    simp only [tick, hfetch] at hc
    rw [List.mem_append] at hc
    rcases hc with hc | hc
    · have h1 : tickUpdateStep provider
          (HandleIndex provider st (some zone) (some ipStr)).state .v4 (a, none)
          zone' "IPv4" =
          ((HandleIndex provider st (some zone) (some ipStr)).state, [], [], [.v4]) := by
        simp [tickUpdateStep, Addr_is4_isValid a h4, updateIP, hslot]
      rw [h1] at hc
      simp at hc
    · have h2 := tickUpdateStep_calls_recordType provider
        (tickUpdateStep provider
          (HandleIndex provider st (some zone) (some ipStr)).state .v4 (a, none)
          zone' "IPv4").1 .v6 (GetExternalIP httpGet url6) zone' "IPv6" c hc
      simp [h2, recordTypeOf]

/-- Witness for C10: a webhook request for the already-stored address
answers 200 with no provider call, and a subsequent tick fetching the same
address issues no A-record write. -/
theorem webhook_poll_share_dedup_witness :
    HandleIndex acceptAllProvider ⟨Addr.v4 1 2 3 4, Addr.unset⟩ (some "z")
        (some "1.2.3.4") =
      ⟨⟨200, jsonMessage "record updated"⟩, ⟨Addr.v4 1 2 3 4, Addr.unset⟩, [], []⟩ ∧
    (tick witnessHttpGet acceptAllProvider
        (HandleIndex acceptAllProvider initialDNSUpdaterState (some "z")
          (some "1.2.3.4")).state
        "u4" "u6" "z2").calls.filter (fun c => c.recordType == "A") = [] :=
  ⟨(webhook_poll_share_dedup acceptAllProvider ⟨Addr.v4 1 2 3 4, Addr.unset⟩
      "z" "z2" "u4" "u6" "1.2.3.4" "1.2.3.4" (Addr.v4 1 2 3 4) witnessHttpGet
      rfl rfl).1 rfl,
   (webhook_poll_share_dedup acceptAllProvider initialDNSUpdaterState
      "z" "z2" "u4" "u6" "1.2.3.4" "1.2.3.4" (Addr.v4 1 2 3 4) witnessHttpGet
      rfl rfl).2 rfl rfl rfl⟩

/-- Helper: field splitting always produces at least one field. -/
theorem splitOnDot_ne_nil : ∀ l : List Char, splitOnDot l ≠ []
  | [] => by simp [splitOnDot]
  | c :: rest => by
    by_cases h : c = '.'
    · simp [splitOnDot, h]
    · simp only [splitOnDot, if_neg h]
      cases hs : splitOnDot rest with
      | nil => simp
      | cons f fs => simp

/-- Helper: joining the dot-split fields recovers the input. -/
theorem joinDots_splitOnDot : ∀ l : List Char, joinDots (splitOnDot l) = l
  | [] => by simp [splitOnDot, joinDots]
  | c :: rest => by
    by_cases h : c = '.'
    · subst h
      simp only [splitOnDot, if_pos rfl]
      cases hs : splitOnDot rest with
      | nil => exact absurd hs (splitOnDot_ne_nil rest)
      | cons f fs =>
        have ih := joinDots_splitOnDot rest
        rw [hs] at ih
        simpa [joinDots] using ih
    · simp only [splitOnDot, if_neg h]
      cases hs : splitOnDot rest with
      | nil => exact absurd hs (splitOnDot_ne_nil rest)
      | cons f fs =>
        have ih := joinDots_splitOnDot rest
        rw [hs] at ih
        cases fs with
        | nil => simpa [joinDots] using ih
        | cons g fs' => simpa [joinDots] using ih

/-- Helper: the numeric range of a digit character. -/
theorem isDigitChar_bounds (c : Char) (h : isDigitChar c = true) :
    48 ≤ c.toNat ∧ c.toNat ≤ 57 := by
  simpa [isDigitChar] using h

/-- Helper: printing a digit's value recovers the digit character. -/
theorem digitChar_round (c : Char) (h : isDigitChar c = true) :
    Char.ofNat (48 + digitVal c) = c := by
  obtain ⟨h1, h2⟩ := isDigitChar_bounds c h
  have hv : 48 + digitVal c = c.toNat := by
    unfold digitVal
    omega
  rw [hv, Char.ofNat_toNat]

/-- Helper: the value returned by an exhausted field scan. -/
theorem parseFieldGo_nil (val digLen v : Nat)
    (h : parseFieldGo [] val digLen = some v) : v = val := by
  simpa [parseFieldGo] using h.symm

/-- Helper: inverting one step of the field scan. -/
theorem parseFieldGo_cons (c : Char) (rest : List Char) (val digLen v : Nat)
    (h : parseFieldGo (c :: rest) val digLen = some v) :
    isDigitChar c = true ∧ ¬(digLen = 1 ∧ val = 0) ∧
      val * 10 + digitVal c ≤ 255 ∧
      parseFieldGo rest (val * 10 + digitVal c) (digLen + 1) = some v := by
  by_cases hd : isDigitChar c
  · simp only [parseFieldGo, if_pos hd] at h
    by_cases hl : digLen = 1 ∧ val = 0
    · rw [if_pos hl] at h
      simp at h
    · rw [if_neg hl] at h
      by_cases hv : 255 < val * 10 + digitVal c
      · rw [if_pos hv] at h
        simp at h
      · rw [if_neg hv] at h
        exact ⟨hd, hl, by omega, h⟩
  · simp [parseFieldGo, hd] at h

/-- Helper: printing an accepted dotted-decimal field's value recovers the
field text exactly (accepted fields have no leading zeros, so they are
already canonical). -/
theorem parseField_inv : ∀ (f : List Char) (v : Nat),
    parseField f = some v → decByteChars v = f := by
  intro f v h
  unfold parseField at h
  match f, h with
  | [], h => simp at h
  | [c1], h =>
    obtain ⟨hd1, _, _, hrest⟩ := parseFieldGo_cons c1 [] 0 0 v h
    have hv := parseFieldGo_nil _ _ _ hrest
    obtain ⟨hl1, hu1⟩ := isDigitChar_bounds c1 hd1
    have hd1v : digitVal c1 ≤ 9 := by
      unfold digitVal
      omega
    have hveq : v = digitVal c1 := by omega
    have h100 : ¬100 ≤ v := by omega
    have h10 : ¬10 ≤ v := by omega
    have hm : v % 10 = v := Nat.mod_eq_of_lt (by omega)
    simp only [decByteChars, if_neg h100, if_neg h10, hm, List.nil_append]
    rw [hveq, digitChar_round c1 hd1]
  | [c1, c2], h =>
    obtain ⟨hd1, _, _, h1⟩ := parseFieldGo_cons c1 [c2] 0 0 v h
    obtain ⟨hd2, hl2, hb2, h2⟩ := parseFieldGo_cons c2 [] _ _ v h1
    have hv := parseFieldGo_nil _ _ _ h2
    obtain ⟨hl1', hu1⟩ := isDigitChar_bounds c1 hd1
    obtain ⟨hl2', hu2⟩ := isDigitChar_bounds c2 hd2
    have hd1v : digitVal c1 ≤ 9 := by unfold digitVal; omega
    have hd2v : digitVal c2 ≤ 9 := by unfold digitVal; omega
    have hne : digitVal c1 ≠ 0 := by
      intro h0
      exact hl2 ⟨rfl, by omega⟩
    have hveq : v = digitVal c1 * 10 + digitVal c2 := by omega
    have h100 : ¬100 ≤ v := by omega
    have h10 : 10 ≤ v := by omega
    have hq : v / 10 % 10 = digitVal c1 := by omega
    have hm : v % 10 = digitVal c2 := by omega
    simp only [decByteChars, if_neg h100, if_pos h10, hq, hm, List.nil_append]
    rw [digitChar_round c1 hd1, digitChar_round c2 hd2]
    rfl
  | [c1, c2, c3], h =>
    obtain ⟨hd1, _, _, h1⟩ := parseFieldGo_cons c1 [c2, c3] 0 0 v h
    obtain ⟨hd2, hl2, hb2, h2⟩ := parseFieldGo_cons c2 [c3] _ _ v h1
    obtain ⟨hd3, _, hb3, h3⟩ := parseFieldGo_cons c3 [] _ _ v h2
    have hv := parseFieldGo_nil _ _ _ h3
    obtain ⟨hl1', hu1⟩ := isDigitChar_bounds c1 hd1
    obtain ⟨hl2', hu2⟩ := isDigitChar_bounds c2 hd2
    obtain ⟨hl3', hu3⟩ := isDigitChar_bounds c3 hd3
    have hd1v : digitVal c1 ≤ 9 := by unfold digitVal; omega
    have hd2v : digitVal c2 ≤ 9 := by unfold digitVal; omega
    have hd3v : digitVal c3 ≤ 9 := by unfold digitVal; omega
    have hne : digitVal c1 ≠ 0 := by
      intro h0
      exact hl2 ⟨rfl, by omega⟩
    have hveq : v = digitVal c1 * 100 + digitVal c2 * 10 + digitVal c3 := by omega
    have h100 : 100 ≤ v := by omega
    have h10 : 10 ≤ v := by omega
    have hq1 : v / 100 = digitVal c1 := by omega
    have hq2 : v / 10 % 10 = digitVal c2 := by omega
    have hm : v % 10 = digitVal c3 := by omega
    simp only [decByteChars, if_pos h100, if_pos h10, hq1, hq2, hm]
    rw [digitChar_round c1 hd1, digitChar_round c2 hd2, digitChar_round c3 hd3]
    rfl
  | c1 :: c2 :: c3 :: c4 :: rest, h =>
    obtain ⟨hd1, _, _, h1⟩ := parseFieldGo_cons c1 _ 0 0 v h
    obtain ⟨hd2, hl2, hb2, h2⟩ := parseFieldGo_cons c2 _ _ _ v h1
    obtain ⟨hd3, _, hb3, h3⟩ := parseFieldGo_cons c3 _ _ _ v h2
    obtain ⟨hd4, _, hb4, h4⟩ := parseFieldGo_cons c4 _ _ _ v h3
    obtain ⟨hl1', hu1⟩ := isDigitChar_bounds c1 hd1
    have hne : digitVal c1 ≠ 0 := by
      intro h0
      exact hl2 ⟨rfl, by omega⟩
    exact absurd hb4 (by unfold digitVal at *; omega)

/-- Helper: re-printing a parsed IPv4 address's four octets reproduces
the accepted input exactly. -/
theorem parseIPv4_roundtrip (l : List Char) (a0 a1 a2 a3 : Nat)
    (h : parseIPv4 l = some (Addr.v4 a0 a1 a2 a3)) :
    joinDots [decByteChars a0, decByteChars a1, decByteChars a2,
      decByteChars a3] = l := by
  unfold parseIPv4 parseIPv4Fields at h
  cases hs : splitOnDot l with
  | nil => exact absurd hs (splitOnDot_ne_nil l)
  | cons f0 fs =>
    rw [hs] at h
    rcases fs with _ | ⟨f1, _ | ⟨f2, _ | ⟨f3, _ | ⟨f4, fs'⟩⟩⟩⟩
    · simp at h
    · simp at h
    · simp at h
    case cons.cons.cons.cons.cons => simp at h
    case cons.cons.cons.nil =>
      dsimp only at h
      cases hp0 : parseField f0 with
      | none => rw [hp0] at h; simp at h
      | some b0 =>
        cases hp1 : parseField f1 with
        | none => rw [hp0, hp1] at h; simp at h
        | some b1 =>
          cases hp2 : parseField f2 with
          | none => rw [hp0, hp1, hp2] at h; simp at h
          | some b2 =>
            cases hp3 : parseField f3 with
            | none => rw [hp0, hp1, hp2, hp3] at h; simp at h
            | some b3 =>
              rw [hp0, hp1, hp2, hp3] at h
              simp only [Option.some.injEq, Addr.v4.injEq] at h
              obtain ⟨h0, h1, h2, h3⟩ := h
              rw [← h0, ← h1, ← h2, ← h3,
                parseField_inv f0 b0 hp0, parseField_inv f1 b1 hp1,
                parseField_inv f2 b2 hp2, parseField_inv f3 b3 hp3]
              rw [← hs]
              exact joinDots_splitOnDot l

/-- Claim C7 (counterexample): the address fetcher accepts the IPv6
literal "0:0:0:0:0:0:0:1", but re-serializing the parsed address yields
the canonical form "::1", not the identical literal, so the round-trip
claim fails as stated for accepted non-canonical IPv6 literals. -/
theorem parse_roundtrip_counterexample :
    (ParseAddr "0:0:0:0:0:0:0:1").map addrString = some "::1" ∧
    ("::1" : String) ≠ "0:0:0:0:0:0:0:1" := by
  exact ⟨rfl, by decide⟩

/-- Claim C7 (amended): every accepted IPv4 literal re-serializes to the
identical literal (accepted IPv4 fields have no leading zeros, so they
are already canonical); for accepted IPv6 literals the re-serialization
need not be identical (see the counterexample); and every response body
that does not parse as an IP literal is rejected by the fetcher with an
invalid-IP-address-format error carrying the body text, together with the
unset address sentinel. -/
theorem parse_roundtrip_amended :
    (∀ (s : String) (a : Addr), ParseAddr s = some a → a.is4 = true →
      addrString a = s) ∧
    (∀ (httpGet : HttpGet) (url body : String), httpGet url = .ok body →
      ParseAddr body = none →
      GetExternalIP httpGet url =
        (Addr.unset, some (.msg ("invalid IP address format: " ++ body)))) := by
  constructor
  · intro s a hp h4
    have hp4 := ParseAddr_is4_via_parseIPv4 s a hp h4
    obtain ⟨b0, b1, b2, b3, rfl⟩ := parseIPv4_shape _ _ hp4
    have hr := parseIPv4_roundtrip s.data b0 b1 b2 b3 hp4
    show (⟨joinDots [decByteChars b0, decByteChars b1, decByteChars b2,
      decByteChars b3]⟩ : String) = s
    rw [hr]
  · intro httpGet url body hg hp
    simp [GetExternalIP, hg, hp]

/-- Witness for the amended C7: an exact IPv4 round trip and a rejected
non-address body. -/
theorem parse_roundtrip_amended_witness :
    addrString (Addr.v4 203 0 113 5) = "203.0.113.5" ∧
    GetExternalIP (fun _ => .ok "hello") "u" =
      (Addr.unset, some (.msg "invalid IP address format: hello")) :=
  ⟨parse_roundtrip_amended.1 "203.0.113.5" (Addr.v4 203 0 113 5) rfl rfl,
   parse_roundtrip_amended.2 (fun _ => .ok "hello") "u" "hello" rfl rfl⟩

end CFDyn
